import Mathlib

/-!
A shallow embedding, over exact rational arithmetic, of the animation
channel extractor (`grab_animations` in `src/model/animation.rs`) and the
timeline resampler (the skinned-model branch of `load` in `src/lib.rs`,
duplicated as `finalize_animations` in `src/model/animation.rs`) of the
minetest-gltf crate, together with theorems settling the frozen claims
about that subsystem.

Modelling conventions:
* `f32` values are modelled as `ℚ` with exact arithmetic.  The two source
  constants `f32::MIN` and `f32::MAX` are embedded as their exact rational
  values.  Division by zero yields `0` in `ℚ` while it yields `inf`/`NaN`
  in `f32`; the only place this matters (a zero `min_distance`, claim C7)
  is flagged in the relevant doc comments.
* `glam::Quat::lerp` normalizes its result; normalization divides by a
  square root, which has no exact rational counterpart.  `Quat.lerp` below
  therefore omits the final normalization.  No theorem in this file
  depends on the numeric content of interpolated rotation values.
* The `AHashMap<i32, BoneAnimationChannel>` accumulators are modelled as
  association lists `List (ℤ × BoneAnimationChannel)`; `entry().or_default()`
  becomes lookup-with-default plus an in-place/append update.
* `return Err(..)` and `panic!(..)` are distinguished by the `RustResult`
  type: `.err` models an error returned to the caller of `load`, while
  `.panicked` models a process abort.
-/

namespace MinetestGltf

/-- The exact rational value of the `f32::MAX` constant. -/
def f32max : ℚ := 2 ^ 128 - 2 ^ 104

/-- The exact rational value of the `f32::MIN` constant. -/
def f32min : ℚ := -(2 ^ 128 - 2 ^ 104)

/-- Truncation toward zero, the behaviour of Rust's `as i32` cast on a
finite in-range float. -/
def truncQ (q : ℚ) : ℤ := if 0 ≤ q then ⌊q⌋ else -⌊-q⌋

/-- `into_precision` from `src/lib.rs` (and its copy in
`src/model/animation.rs`): `(x * 100_000.0) as i32`. -/
def into_precision (x : ℚ) : ℤ := truncQ (x * 100000)

/-- Rust's `f32::round`: round half away from zero. -/
def roundRust (q : ℚ) : ℤ := if 0 ≤ q then ⌊q + 1 / 2⌋ else -⌊-q + 1 / 2⌋

/-- `glam::Vec3` over exact rationals. -/
structure Vec3 where
  x : ℚ
  y : ℚ
  z : ℚ
deriving DecidableEq

/-- `glam::Vec3::lerp`: `self + ((rhs - self) * s)`, componentwise. -/
def Vec3.lerp (a b : Vec3) (s : ℚ) : Vec3 :=
  ⟨a.x + (b.x - a.x) * s, a.y + (b.y - a.y) * s, a.z + (b.z - a.z) * s⟩

/-- `Vec3::new(0.0, 0.0, 0.0)`, the identity fill for translations. -/
def Vec3.zero : Vec3 := ⟨0, 0, 0⟩

/-- `Vec3::new(1.0, 1.0, 1.0)`, the identity fill for scales. -/
def Vec3.one : Vec3 := ⟨1, 1, 1⟩

/-- `glam::Quat` over exact rationals. -/
structure Quat where
  x : ℚ
  y : ℚ
  z : ℚ
  w : ℚ
deriving DecidableEq

/-- `glam::Quat::IDENTITY`. -/
def Quat.identity : Quat := ⟨0, 0, 0, 1⟩

/-- `glam::Quat::dot`. -/
def Quat.dot (a b : Quat) : ℚ := a.x * b.x + a.y * b.y + a.z * b.z + a.w * b.w

/-- `glam::Quat::lerp`: shortest-path bias then componentwise linear
interpolation.  The final normalization performed by glam is omitted (it
divides by a square root, which is not exactly representable in `ℚ`); no
theorem below depends on interpolated rotation values. -/
def Quat.lerp (a b : Quat) (s : ℚ) : Quat :=
  let bias : ℚ := if 0 ≤ Quat.dot a b then 1 else -1
  ⟨a.x + (b.x * bias - a.x) * s, a.y + (b.y * bias - a.y) * s,
   a.z + (b.z * bias - a.z) * s, a.w + (b.w * bias - a.w) * s⟩

/-- `BoneAnimationChannel` from `src/model/animation.rs`: raw (and, after
finalization, resampled) TRS plus morph-weight data for one node. -/
structure BoneAnimationChannel where
  translations : List Vec3
  translation_timestamps : List ℚ
  rotations : List Quat
  rotation_timestamps : List ℚ
  scales : List Vec3
  scale_timestamps : List ℚ
  weights : List ℚ
  weight_timestamps : List ℚ
deriving DecidableEq

/-- `BoneAnimationChannel::new()` / `Default::default()`: all arrays empty. -/
def BoneAnimationChannel.new : BoneAnimationChannel :=
  ⟨[], [], [], [], [], [], [], []⟩

/-- Result of a Rust computation that can return an `Err` to its caller or
abort the process through `panic!`. -/
inductive RustResult (α : Type) where
  | ok : α → RustResult α
  | err : String → RustResult α
  | panicked : String → RustResult α
deriving DecidableEq

instance : Monad RustResult where
  pure := .ok
  bind
    | .ok a, f => f a
    | .err e, _ => .err e
    | .panicked e, _ => .panicked e

/-- `true` exactly on the `.ok` constructor. -/
def RustResult.isOk {α : Type} : RustResult α → Bool
  | .ok _ => true
  | .err _ => false
  | .panicked _ => false

/-- The three worker variables of the timing scan in `load`
(`min_time_worker`, `max_time_worker`, `min_distance_worker`). -/
structure Timing where
  min_time : ℚ
  max_time : ℚ
  min_distance : ℚ
deriving DecidableEq

/-- The inner loop of the `devolve_timestamp_data` closure: one step per
timestamp, threading `old_timestamp`. -/
def devolveGo (st : Timing) (old_timestamp : ℚ) : List ℚ → Timing
  | [] => st
  | timestamp :: rest =>
      let md := if timestamp - old_timestamp < st.min_distance then
          timestamp - old_timestamp else st.min_distance
      let mn := if timestamp < st.min_time then timestamp else st.min_time
      let mx := if timestamp > st.max_time then timestamp else st.max_time
      devolveGo ⟨mn, mx, md⟩ timestamp rest

/-- The `devolve_timestamp_data` closure from `load`: scan one timestamp
array, with `old_timestamp` starting at `f32::MIN`. -/
def devolve_timestamp_data (st : Timing) (raw_timestamps : List ℚ) : Timing :=
  devolveGo st f32min raw_timestamps

/-- The global timing scan of `load` (`src/lib.rs` lines 126-168).  Note:
the source invokes the closure on `animation.translation_timestamps`, then
`animation.rotation_timestamps` TWICE (the comment above the third call
says "Scale timestamps." but the argument passed is
`animation.rotation_timestamps`), then `animation.weight_timestamps`;
`scale_timestamps` is never scanned.  This embedding is faithful to that. -/
def computeTiming (bones : List (ℤ × BoneAnimationChannel)) : Timing :=
  bones.foldl
    (fun st p =>
      devolve_timestamp_data
        (devolve_timestamp_data
          (devolve_timestamp_data
            (devolve_timestamp_data st p.2.translation_timestamps)
            p.2.rotation_timestamps)
          p.2.rotation_timestamps)
        p.2.weight_timestamps)
    ⟨0, 0, f32max⟩

/-- The timing scan as the specification describes it: every node record's
FOUR timestamp arrays (translation, rotation, scale, weight) are each
scanned once.  This is the spec-side definition used to compare against
`computeTiming` (which scans rotation twice and scale never). -/
def computeTimingSpec (bones : List (ℤ × BoneAnimationChannel)) : Timing :=
  bones.foldl
    (fun st p =>
      devolve_timestamp_data
        (devolve_timestamp_data
          (devolve_timestamp_data
            (devolve_timestamp_data st p.2.translation_timestamps)
            p.2.rotation_timestamps)
          p.2.scale_timestamps)
        p.2.weight_timestamps)
    ⟨0, 0, f32max⟩

/-- `required_frames` from `load`:
`(max_time / min_distance).round() as usize + 1`.  The `as usize` cast
clamps negative values to `0`. -/
def required_frames (max_time min_distance : ℚ) : ℕ :=
  (roundRust (max_time / min_distance)).toNat + 1

/-- The shared frame count `load` derives from a raw-channel mapping. -/
def requiredFramesOf (bones : List (ℤ × BoneAnimationChannel)) : ℕ :=
  required_frames (computeTiming bones).max_time (computeTiming bones).min_distance

/-- The exact-precision-match search of the general resampling case: the
first index whose timestamp has precision key `p` (the
`found_frame_key` loop). -/
def findFrameKey (p : ℤ) : List ℚ → Option ℕ
  | [] => none
  | gotten :: rest =>
      if into_precision gotten = p then some 0
      else (findFrameKey p rest).map (· + 1)

/-- Length of the initial run of timestamps whose precision key is strictly
below `p` (the leading-frame loop keeps overwriting `leading_frame` until
it overshoots, then breaks). -/
def ltPrefixLen (p : ℤ) : List ℚ → ℕ
  | [] => 0
  | gotten :: rest =>
      if into_precision gotten < p then ltPrefixLen p rest + 1 else 0

/-- The leading-frame search of the general resampling case: the last index
of the initial run of timestamps with precision key strictly below `p`,
`none` if the very first timestamp already overshoots. -/
def leadingFrame (p : ℤ) (ts : List ℚ) : Option ℕ :=
  if ltPrefixLen p ts = 0 then none else some (ltPrefixLen p ts - 1)

/-- The following-frame search of the general resampling case: the first
index whose timestamp has precision key strictly above `p`. -/
def followingFrame (p : ℤ) : List ℚ → Option ℕ
  | [] => none
  | gotten :: rest =>
      if p < into_precision gotten then some 0
      else (followingFrame p rest).map (· + 1)

/-- One grid slot of the general ("brute force") resampling case, for one
component; direct translation of the body of the
`for i in 0..required_frames` loop of `load`.  Out-of-range indexing (which
would panic in Rust) is modelled with `getD`; the bounds theorems below
show the defaults are never taken when the source arrays have at least two
entries. -/
def generalStep {V : Type} (ident : V) (lerp : V → V → ℚ → V)
    (vals : List V) (ts : List ℚ) (max_time : ℚ) (rf : ℕ) (i : ℕ) : ℚ × V :=
  let current_percentile : ℚ := (i : ℚ) / ((rf - 1 : ℕ) : ℚ)
  let current_stamp := current_percentile * max_time
  let precise_stamp := into_precision current_stamp
  match findFrameKey precise_stamp ts with
  | some key => (ts.getD key 0, vals.getD key ident)
  | none =>
      if precise_stamp = 0 then
        (current_stamp, vals.getD 1 ident)
      else
        let leader := (leadingFrame precise_stamp ts).getD 0
        let follower := (followingFrame precise_stamp ts).getD leader
        let lead_timestamp := ts.getD leader 0
        let lead_value := vals.getD leader ident
        let follow_timestamp := ts.getD follower 0
        let follow_value := vals.getD follower ident
        let scale := follow_timestamp - lead_timestamp
        let shifted_stamp := current_stamp - lead_timestamp
        let finalized_percentile := shifted_stamp / scale
        (current_stamp, lerp lead_value follow_value finalized_percentile)

/-- Resampling of one TRS component onto the shared grid: the per-component
block that `load` repeats verbatim for translations, rotations and scales,
parametrized by the component's identity fill and interpolation function.
Produces the (timestamp array, value array) pair, or the `Err` that `load`
returns on a raw length mismatch. -/
def resampleComponent {V : Type} (compName : String) (id : ℤ)
    (ident : V) (lerp : V → V → ℚ → V)
    (vals : List V) (ts : List ℚ) (max_time min_distance : ℚ) (rf : ℕ) :
    RustResult (List ℚ × List V) :=
  if ts.length ≠ vals.length then
    .err ("Unequal animation " ++ compName ++ " lengths in channel " ++
      toString id ++ ".")
  else if ts.isEmpty then
    .ok (((List.range rf).map fun (i : ℕ) => ((i : ℚ) * min_distance, ident)).unzip)
  else if ts.length = 1 then
    let polyfill := vals.headD ident
    .ok (((List.range rf).map fun (i : ℕ) => ((i : ℚ) * min_distance, polyfill)).unzip)
  else
    let raw_add : Bool :=
      into_precision (ts.headD 0) == 0 &&
        into_precision (ts.getLastD 0) == into_precision max_time
    if raw_add && ts.length == rf then
      .ok (ts, vals)
    else if raw_add && ts.length == 2 then
      .ok (((List.range rf).map fun (i : ℕ) =>
        let current_percentile : ℚ := (i : ℚ) / ((rf - 1 : ℕ) : ℚ)
        (current_percentile * max_time,
          lerp (vals.headD ident) (vals.getLastD ident) current_percentile)).unzip)
    else
      .ok (((List.range rf).map (generalStep ident lerp vals ts max_time rf)).unzip)

/-- The two assertions that follow each per-component block in `load`:
mismatched finalized lengths or a finalized length different from
`required_frames` are a `panic!`. -/
def checkLens {V : Type} (compName : String) (ts : List ℚ) (vs : List V)
    (rf : ℕ) : RustResult Unit :=
  if ts.length ≠ vs.length then
    .panicked ("BLEW UP! Mismatched " ++ compName ++ " lengths.")
  else if ts.length ≠ rf then
    .panicked ("BLEW UP! " ++ compName ++ " frames")
  else .ok ()

/-- The per-node body of the finalization loop of `load`: resample
translations, rotations and scales in order, running the post-resample
assertions after each, and build the finalized channel.  The freshly
created channel's `weights` and `weight_timestamps` are never written by
the source loop, so they stay empty. -/
def finalizeChannel (id : ℤ) (animation : BoneAnimationChannel)
    (max_time min_distance : ℚ) (rf : ℕ) : RustResult BoneAnimationChannel := do
  let t ← resampleComponent "translation" id Vec3.zero Vec3.lerp
    animation.translations animation.translation_timestamps max_time min_distance rf
  let _ ← checkLens "translation" t.1 t.2 rf
  let r ← resampleComponent "rotation" id Quat.identity Quat.lerp
    animation.rotations animation.rotation_timestamps max_time min_distance rf
  let _ ← checkLens "rotation" r.1 r.2 rf
  let s ← resampleComponent "scale" id Vec3.one Vec3.lerp
    animation.scales animation.scale_timestamps max_time min_distance rf
  let _ ← checkLens "scale" s.1 s.2 rf
  pure { translations := t.2, translation_timestamps := t.1,
         rotations := r.2, rotation_timestamps := r.1,
         scales := s.2, scale_timestamps := s.1,
         weights := [], weight_timestamps := [] }

/-- The finalization loop of `load` over all raw records, in iteration
order of the (modelled) map. -/
def finalizeList (max_time min_distance : ℚ) (rf : ℕ) :
    List (ℤ × BoneAnimationChannel) → RustResult (List (ℤ × BoneAnimationChannel))
  | [] => .ok []
  | (id, animation) :: rest => do
      let ch ← finalizeChannel id animation max_time min_distance rf
      let out ← finalizeList max_time min_distance rf rest
      pure ((id, ch) :: out)

/-- The whole timeline resampler: timing scan, `required_frames`, then the
finalization loop (the skinned branch of `load`, also duplicated as
`finalize_animations` in `src/model/animation.rs`). -/
def finalize_animations (bones : List (ℤ × BoneAnimationChannel)) :
    RustResult (List (ℤ × BoneAnimationChannel)) :=
  let timing := computeTiming bones
  finalizeList timing.max_time timing.min_distance
    (required_frames timing.max_time timing.min_distance) bones

/-- The skinned tail of `load`: on success the caller receives the geometry
together with the finalized animations and `is_animated = true`; an `Err`
from the finalization loop is returned to the caller of `load`, discarding
the geometry; a `panic!` aborts. -/
def loadSkinned {G : Type} (geometry : G)
    (bones : List (ℤ × BoneAnimationChannel)) :
    RustResult (G × List (ℤ × BoneAnimationChannel) × Bool) :=
  match finalize_animations bones with
  | .ok fin => .ok (geometry, fin, true)
  | .err e => .err e
  | .panicked e => .panicked e

/-- The timestamp reader of one glTF animation channel: a standard dense
array or a sparse accessor (`gltf::accessor::Iter`). -/
inductive TimestampInput where
  | standard : List ℚ → TimestampInput
  | sparse : TimestampInput
deriving DecidableEq

/-- The output reader of one glTF animation channel
(`gltf::animation::util::ReadOutputs` with its numeric sub-variants).
For the unsupported integer encodings the source never touches the
payload, so it is not carried here. -/
inductive RawOutputs where
  | translations : List Vec3 → RawOutputs
  | rotationsI8 : RawOutputs
  | rotationsU8 : RawOutputs
  | rotationsI16 : RawOutputs
  | rotationsU16 : RawOutputs
  | rotationsF32 : List Quat → RawOutputs
  | scales : List Vec3 → RawOutputs
  | weightsI8 : RawOutputs
  | weightsU8 : RawOutputs
  | weightsI16 : RawOutputs
  | weightsU16 : RawOutputs
  | weightsF32 : List ℚ → RawOutputs
deriving DecidableEq

/-- One glTF animation channel as `grab_animations` consumes it: the
timestamp reader (absent when `read_inputs()` returns `None`), the output
reader (absent when `read_outputs()` returns `None`), and the target node
index. -/
structure GltfChannel where
  inputs : Option TimestampInput
  outputs : Option RawOutputs
  target_node : ℤ
deriving DecidableEq

/-- The `Keyframes` enum from `src/model/animation.rs`. -/
inductive Keyframes where
  | translation : List Vec3 → Keyframes
  | rotation : List Quat → Keyframes
  | scale : List Vec3 → Keyframes
  | weights : List ℚ → Keyframes
  | explosion : Keyframes
deriving DecidableEq

/-- Decoding of the output payload in `grab_animations`: float encodings
are accepted, the 8/16-bit integer encodings go through `generic_failure`
(which clears the accumulator, sets `blew_up` and yields
`Keyframes::Explosion`). -/
def decodeOutputs : RawOutputs → Keyframes
  | .translations t => .translation t
  | .rotationsI8 => .explosion
  | .rotationsU8 => .explosion
  | .rotationsI16 => .explosion
  | .rotationsU16 => .explosion
  | .rotationsF32 q => .rotation q
  | .scales s => .scale s
  | .weightsI8 => .explosion
  | .weightsU8 => .explosion
  | .weightsI16 => .explosion
  | .weightsU16 => .explosion
  | .weightsF32 w => .weights w

/-- Lookup in the modelled `AHashMap`: the entry for `id`, or a default
(empty) channel when absent (`entry(bone_id).or_default()`). -/
def lookupChannel (acc : List (ℤ × BoneAnimationChannel)) (id : ℤ) :
    Option BoneAnimationChannel :=
  match acc with
  | [] => none
  | (k, c) :: rest => if k = id then some c else lookupChannel rest id

/-- `entry(bone_id).or_default()` as a total read. -/
def lookupOrDefault (acc : List (ℤ × BoneAnimationChannel)) (id : ℤ) :
    BoneAnimationChannel :=
  (lookupChannel acc id).getD BoneAnimationChannel.new

/-- Writing the (possibly fresh) entry back into the modelled map. -/
def updateChannel (acc : List (ℤ × BoneAnimationChannel)) (id : ℤ)
    (c : BoneAnimationChannel) : List (ℤ × BoneAnimationChannel) :=
  match acc with
  | [] => [(id, c)]
  | (k, old) :: rest =>
      if k = id then (k, c) :: rest else (k, old) :: updateChannel rest id c

/-- The channel loop of `grab_animations`.  Every fatal condition in the
source clears `bone_animation_channels` and then `break`s out of the loop,
so the function returns the just-cleared (empty) map; this is modelled by
returning `.ok []`.  The `Keyframes::Explosion` match arm of the source is
a `panic!`; it is modelled faithfully (and proved unreachable below),
guarded as in the source by the `blew_up` early exit. -/
def processChannels (acc : List (ℤ × BoneAnimationChannel)) :
    List GltfChannel → RustResult (List (ℤ × BoneAnimationChannel))
  | [] => .ok acc
  | channel :: rest =>
    match channel.inputs with
    | none => .ok []
    | some .sparse => .ok []
    | some (.standard timestamps) =>
      match channel.outputs with
      | none => .ok []
      | some outs =>
        let keyframes := decodeOutputs outs
        if keyframes = Keyframes.explosion then .ok []
        else
          match keyframes with
          | .explosion =>
              .panicked "minetest-gltf: Explosion was somehow reached in animation!"
          | .translation translations =>
              let animation_channel := lookupOrDefault acc channel.target_node
              if animation_channel.translations ≠ [] then .ok []
              else if translations.length ≠ timestamps.length then .ok []
              else
                processChannels
                  (updateChannel acc channel.target_node
                    { animation_channel with
                      translations := translations,
                      translation_timestamps := timestamps })
                  rest
          | .rotation rotations =>
              let animation_channel := lookupOrDefault acc channel.target_node
              if animation_channel.rotations ≠ [] then .ok []
              else if rotations.length ≠ timestamps.length then .ok []
              else
                processChannels
                  (updateChannel acc channel.target_node
                    { animation_channel with
                      rotations := rotations,
                      rotation_timestamps := timestamps })
                  rest
          | .scale scales =>
              let animation_channel := lookupOrDefault acc channel.target_node
              if animation_channel.scales ≠ [] then .ok []
              else if scales.length ≠ timestamps.length then .ok []
              else
                processChannels
                  (updateChannel acc channel.target_node
                    { animation_channel with
                      scales := scales,
                      scale_timestamps := timestamps })
                  rest
          | .weights weights =>
              let animation_channel := lookupOrDefault acc channel.target_node
              if animation_channel.weights ≠ [] then .ok []
              else
                processChannels
                  (updateChannel acc channel.target_node
                    { animation_channel with
                      weights := weights,
                      weight_timestamps := timestamps })
                  rest

/-- `grab_animations`: process the first animation clip's channels starting
from an empty accumulator.  (A model without animations contributes an
empty channel list.) -/
def grab_animations (channels : List GltfChannel) :
    RustResult (List (ℤ × BoneAnimationChannel)) :=
  processChannels [] channels

/-- The end-to-end skinned pipeline: extract raw channels, then resample,
as composed inside `load`. -/
def loadFull {G : Type} (geometry : G) (channels : List GltfChannel) :
    RustResult (G × List (ℤ × BoneAnimationChannel) × Bool) :=
  match grab_animations channels with
  | .ok bones => loadSkinned geometry bones
  | .err e => .err e
  | .panicked e => .panicked e

/-- The per-channel fatality test of `grab_animations`, relative to the
accumulator state when the channel is reached: sparse or absent timestamp
accessor, absent or unsupported output payload, a duplicate channel for an
already-populated component of the target node, or a value/timestamp
length mismatch. -/
def channelFatal (acc : List (ℤ × BoneAnimationChannel))
    (channel : GltfChannel) : Bool :=
  match channel.inputs with
  | none => true
  | some .sparse => true
  | some (.standard timestamps) =>
    match channel.outputs with
    | none => true
    | some outs =>
      match decodeOutputs outs with
      | .explosion => true
      | .translation translations =>
          !(lookupOrDefault acc channel.target_node).translations.isEmpty ||
            translations.length != timestamps.length
      | .rotation rotations =>
          !(lookupOrDefault acc channel.target_node).rotations.isEmpty ||
            rotations.length != timestamps.length
      | .scale scales =>
          !(lookupOrDefault acc channel.target_node).scales.isEmpty ||
            scales.length != timestamps.length
      | .weights _ =>
          !(lookupOrDefault acc channel.target_node).weights.isEmpty

/-- Consecutive differences of a timestamp array (successor minus
predecessor), the gaps the specification's `min_distance` talks about. -/
def consecDeltas (l : List ℚ) : List ℚ :=
  List.zipWith (fun a b => b - a) l l.tail

/-- All consecutive differences the timing scan of `load` actually visits:
per record, the translation array, the rotation array twice, and the
weight array (matching `computeTiming`). -/
def scannedDeltas (bones : List (ℤ × BoneAnimationChannel)) : List ℚ :=
  bones.flatMap fun p =>
    consecDeltas p.2.translation_timestamps ++
      consecDeltas p.2.rotation_timestamps ++
        consecDeltas p.2.rotation_timestamps ++
          consecDeltas p.2.weight_timestamps

/-- The smallest positive consecutive gap over the arrays the scan actually
visits, with the scan's initial value `f32::MAX` as default. -/
def smallestPositiveGapScanned (bones : List (ℤ × BoneAnimationChannel)) : ℚ :=
  ((scannedDeltas bones).filter fun d => decide (0 < d)).foldl min f32max

/-- Spec-side definition: the smallest positive consecutive gap over every
node record's FOUR timestamp arrays, as §3 of the specification defines
`min_distance`; default `f32::MAX` when no positive gap exists. -/
def smallestPositiveGapSpec (bones : List (ℤ × BoneAnimationChannel)) : ℚ :=
  ((bones.flatMap fun p =>
      consecDeltas p.2.translation_timestamps ++
        consecDeltas p.2.rotation_timestamps ++
          consecDeltas p.2.scale_timestamps ++
            consecDeltas p.2.weight_timestamps).filter fun d =>
                decide (0 < d)).foldl min f32max

/-- A timestamp array is strictly increasing with nonnegative entries:
the well-formedness under which the timing scan matches the
specification's description. -/
def strictSortedNonneg : List ℚ → Bool
  | [] => true
  | [a] => decide (0 ≤ a)
  | a :: b :: rest =>
      decide (0 ≤ a) && decide (a < b) && strictSortedNonneg (b :: rest)


-- Reduction lemmas for the `RustResult` monad.
theorem rr_bind_ok {α β : Type} (a : α) (f : α → RustResult β) :
    (RustResult.ok a >>= f) = f a := rfl

theorem rr_bind_err {α β : Type} (e : String) (f : α → RustResult β) :
    (RustResult.err e >>= f) = RustResult.err e := rfl

theorem rr_bind_panicked {α β : Type} (e : String) (f : α → RustResult β) :
    (RustResult.panicked e >>= f) = RustResult.panicked e := rfl

theorem rr_pure_eq_ok {α : Type} (a : α) :
    (pure a : RustResult α) = RustResult.ok a := rfl

-- Reading a mapped range at an in-range index.
theorem getD_map_range {α : Type} (f : ℕ → α) (rf i : ℕ) (d : α) (h : i < rf) :
    ((List.range rf).map f).getD i d = f i := by
  rw [List.getD_eq_getElem?_getD, List.getElem?_map, List.getElem?_range h]
  rfl

-- Both arrays produced by a successful component resample have length
-- `required_frames`, whichever branch produced them.
theorem resampleComponent_ok_lengths {V : Type} {compName : String} {id : ℤ}
    {ident : V} {lerp : V → V → ℚ → V} {vals : List V} {ts : List ℚ}
    {max_time min_distance : ℚ} {rf : ℕ} {outTs : List ℚ} {outVals : List V}
    (h : resampleComponent compName id ident lerp vals ts max_time min_distance rf
      = .ok (outTs, outVals)) :
    outTs.length = rf ∧ outVals.length = rf := by
  simp only [resampleComponent] at h
  split at h
  · simp at h
  · split at h
    · rw [RustResult.ok.injEq, Prod.mk.injEq] at h
      obtain ⟨h1, h2⟩ := h
      subst h1; subst h2
      constructor <;> simp [List.unzip_fst, List.unzip_snd]
    · split at h
      · rw [RustResult.ok.injEq, Prod.mk.injEq] at h
        obtain ⟨h1, h2⟩ := h
        subst h1; subst h2
        constructor <;> simp [List.unzip_fst, List.unzip_snd]
      · rename_i hne hemp hone
        split at h
        · rename_i hcond
          rw [RustResult.ok.injEq, Prod.mk.injEq] at h
          obtain ⟨h1, h2⟩ := h
          subst h1; subst h2
          rw [Bool.and_eq_true, beq_iff_eq] at hcond
          refine ⟨hcond.2, ?_⟩
          omega
        · split at h
          · rw [RustResult.ok.injEq, Prod.mk.injEq] at h
            obtain ⟨h1, h2⟩ := h
            subst h1; subst h2
            constructor <;> simp [List.unzip_fst, List.unzip_snd]
          · rw [RustResult.ok.injEq, Prod.mk.injEq] at h
            obtain ⟨h1, h2⟩ := h
            subst h1; subst h2
            constructor <;> simp [List.unzip_fst, List.unzip_snd]

-- A successful `finalizeChannel` yields six resampled arrays of length
-- `required_frames` and empty weight arrays.
theorem finalizeChannel_ok_shape {id : ℤ} {animation : BoneAnimationChannel}
    {max_time min_distance : ℚ} {rf : ℕ} {ch : BoneAnimationChannel}
    (h : finalizeChannel id animation max_time min_distance rf = .ok ch) :
    ch.translations.length = rf ∧ ch.translation_timestamps.length = rf ∧
    ch.rotations.length = rf ∧ ch.rotation_timestamps.length = rf ∧
    ch.scales.length = rf ∧ ch.scale_timestamps.length = rf ∧
    ch.weights = [] ∧ ch.weight_timestamps = [] := by
  unfold finalizeChannel at h
  cases ht : resampleComponent "translation" id Vec3.zero Vec3.lerp
      animation.translations animation.translation_timestamps max_time min_distance rf with
  | err e => rw [ht, rr_bind_err] at h; simp at h
  | panicked e => rw [ht, rr_bind_panicked] at h; simp at h
  | ok t =>
    obtain ⟨tts, tvs⟩ := t
    rw [ht, rr_bind_ok] at h
    cases hct : checkLens "translation" tts tvs rf with
    | err e => rw [hct, rr_bind_err] at h; simp at h
    | panicked e => rw [hct, rr_bind_panicked] at h; simp at h
    | ok u =>
      rw [hct, rr_bind_ok] at h
      cases hr : resampleComponent "rotation" id Quat.identity Quat.lerp
          animation.rotations animation.rotation_timestamps max_time min_distance rf with
      | err e => rw [hr, rr_bind_err] at h; simp at h
      | panicked e => rw [hr, rr_bind_panicked] at h; simp at h
      | ok r =>
        obtain ⟨rts, rvs⟩ := r
        rw [hr, rr_bind_ok] at h
        cases hcr : checkLens "rotation" rts rvs rf with
        | err e => rw [hcr, rr_bind_err] at h; simp at h
        | panicked e => rw [hcr, rr_bind_panicked] at h; simp at h
        | ok u2 =>
          rw [hcr, rr_bind_ok] at h
          cases hs : resampleComponent "scale" id Vec3.one Vec3.lerp
              animation.scales animation.scale_timestamps max_time min_distance rf with
          | err e => rw [hs, rr_bind_err] at h; simp at h
          | panicked e => rw [hs, rr_bind_panicked] at h; simp at h
          | ok s =>
            obtain ⟨sts, svs⟩ := s
            rw [hs, rr_bind_ok] at h
            cases hcs : checkLens "scale" sts svs rf with
            | err e => rw [hcs, rr_bind_err] at h; simp at h
            | panicked e => rw [hcs, rr_bind_panicked] at h; simp at h
            | ok u3 =>
              rw [hcs, rr_bind_ok, rr_pure_eq_ok, RustResult.ok.injEq] at h
              subst h
              obtain ⟨t1, t2⟩ := resampleComponent_ok_lengths ht
              obtain ⟨r1, r2⟩ := resampleComponent_ok_lengths hr
              obtain ⟨s1, s2⟩ := resampleComponent_ok_lengths hs
              exact ⟨t2, t1, r2, r1, s2, s1, rfl, rfl⟩

-- Shape of every record of a successful finalization loop.
theorem finalizeList_ok_shape {max_time min_distance : ℚ} {rf : ℕ}
    {bones out : List (ℤ × BoneAnimationChannel)}
    (h : finalizeList max_time min_distance rf bones = .ok out) :
    ∀ p ∈ out,
      p.2.translations.length = rf ∧ p.2.translation_timestamps.length = rf ∧
      p.2.rotations.length = rf ∧ p.2.rotation_timestamps.length = rf ∧
      p.2.scales.length = rf ∧ p.2.scale_timestamps.length = rf ∧
      p.2.weights = [] ∧ p.2.weight_timestamps = [] := by
  induction bones generalizing out with
  | nil =>
    simp only [finalizeList, RustResult.ok.injEq] at h
    subst h
    intro p hp
    simp at hp
  | cons b rest ih =>
    obtain ⟨id, animation⟩ := b
    simp only [finalizeList] at h
    cases hc : finalizeChannel id animation max_time min_distance rf with
    | err e => rw [hc, rr_bind_err] at h; simp at h
    | panicked e => rw [hc, rr_bind_panicked] at h; simp at h
    | ok ch =>
      rw [hc, rr_bind_ok] at h
      cases hrest : finalizeList max_time min_distance rf rest with
      | err e => rw [hrest, rr_bind_err] at h; simp at h
      | panicked e => rw [hrest, rr_bind_panicked] at h; simp at h
      | ok outRest =>
        rw [hrest, rr_bind_ok, rr_pure_eq_ok, RustResult.ok.injEq] at h
        subst h
        intro p hp
        rcases List.mem_cons.mp hp with hhead | htail
        · subst hhead
          exact finalizeChannel_ok_shape hc
        · exact ih hrest p htail

/-- Claim C1: for every raw-channel mapping accepted by the resampler
(`finalize_animations` returns `ok`), every node of the result has
`translations`, `translation_timestamps`, `rotations`,
`rotation_timestamps`, `scales` and `scale_timestamps` all of length
exactly `required_frames`, across all resampling branches (empty,
single-keyframe, raw-add, two-keyframe and general case). -/
theorem resampled_arrays_length_eq_required_frames
    {bones out : List (ℤ × BoneAnimationChannel)}
    (h : finalize_animations bones = .ok out) :
    ∀ p ∈ out,
      p.2.translations.length = requiredFramesOf bones ∧
      p.2.translation_timestamps.length = requiredFramesOf bones ∧
      p.2.rotations.length = requiredFramesOf bones ∧
      p.2.rotation_timestamps.length = requiredFramesOf bones ∧
      p.2.scales.length = requiredFramesOf bones ∧
      p.2.scale_timestamps.length = requiredFramesOf bones := by
  unfold finalize_animations at h
  intro p hp
  obtain ⟨h1, h2, h3, h4, h5, h6, _, _⟩ := finalizeList_ok_shape h p hp
  exact ⟨h1, h2, h3, h4, h5, h6⟩

/-- A non-empty raw mapping with one node and no keyframe data at all:
the smallest accepted input (`required_frames = 1`). -/
def bonesC1w : List (ℤ × BoneAnimationChannel) := [(0, BoneAnimationChannel.new)]

/-- The finalized channel `finalize_animations` produces for `bonesC1w`. -/
def chC1w : BoneAnimationChannel :=
  { translations := [Vec3.zero], translation_timestamps := [0],
    rotations := [Quat.identity], rotation_timestamps := [0],
    scales := [Vec3.one], scale_timestamps := [0],
    weights := [], weight_timestamps := [] }

/-- Witness for claim C1 at a concrete accepted input. -/
theorem resampled_arrays_length_eq_required_frames_witness :
    finalize_animations bonesC1w = .ok [((0 : ℤ), chC1w)] ∧
    ∀ p ∈ [((0 : ℤ), chC1w)],
      p.2.translations.length = requiredFramesOf bonesC1w ∧
      p.2.translation_timestamps.length = requiredFramesOf bonesC1w ∧
      p.2.rotations.length = requiredFramesOf bonesC1w ∧
      p.2.rotation_timestamps.length = requiredFramesOf bonesC1w ∧
      p.2.scales.length = requiredFramesOf bonesC1w ∧
      p.2.scale_timestamps.length = requiredFramesOf bonesC1w := by
  have h : finalize_animations bonesC1w = .ok [((0 : ℤ), chC1w)] := by
    norm_num [finalize_animations, finalizeList, finalizeChannel, resampleComponent,
      checkLens, computeTiming, devolve_timestamp_data, devolveGo, required_frames,
      requiredFramesOf, roundRust, truncQ, into_precision, f32max, f32min,
      bonesC1w, chC1w, BoneAnimationChannel.new, Vec3.zero, Vec3.one, Quat.identity,
      List.range_succ, rr_bind_ok, rr_pure_eq_ok]
  exact ⟨h, resampled_arrays_length_eq_required_frames h⟩

/-- Per-record well-formedness that `grab_animations` guarantees for its
output: each of the three TRS value arrays matches its timestamp array in
length. -/
def goodLens (m : List (ℤ × BoneAnimationChannel)) : Prop :=
  ∀ p ∈ m,
    p.2.translations.length = p.2.translation_timestamps.length ∧
    p.2.rotations.length = p.2.rotation_timestamps.length ∧
    p.2.scales.length = p.2.scale_timestamps.length

-- A successful lookup in the modelled map is a membership.
theorem lookupChannel_mem {acc : List (ℤ × BoneAnimationChannel)} {id : ℤ}
    {c : BoneAnimationChannel} (h : lookupChannel acc id = some c) :
    (id, c) ∈ acc := by
  induction acc with
  | nil => simp [lookupChannel] at h
  | cons b rest ih =>
    obtain ⟨k, c'⟩ := b
    simp only [lookupChannel] at h
    split at h
    · rename_i hk
      rw [Option.some.injEq] at h
      subst h; subst hk
      exact List.mem_cons_self _ _
    · exact List.mem_cons_of_mem _ (ih h)

-- `entry().or_default()` reads a record with matching lengths out of a
-- well-formed accumulator (the default record is trivially well-formed).
theorem lookupOrDefault_good {acc : List (ℤ × BoneAnimationChannel)} (id : ℤ)
    (h : goodLens acc) :
    (lookupOrDefault acc id).translations.length
        = (lookupOrDefault acc id).translation_timestamps.length ∧
      (lookupOrDefault acc id).rotations.length
        = (lookupOrDefault acc id).rotation_timestamps.length ∧
      (lookupOrDefault acc id).scales.length
        = (lookupOrDefault acc id).scale_timestamps.length := by
  unfold lookupOrDefault
  cases hl : lookupChannel acc id with
  | none => exact ⟨rfl, rfl, rfl⟩
  | some c => exact h (id, c) (lookupChannel_mem hl)

-- Members of an updated map are the written entry or old members.
theorem mem_updateChannel {acc : List (ℤ × BoneAnimationChannel)} {id : ℤ}
    {c : BoneAnimationChannel} {p : ℤ × BoneAnimationChannel}
    (h : p ∈ updateChannel acc id c) : p = (id, c) ∨ p ∈ acc := by
  induction acc with
  | nil =>
    simp only [updateChannel] at h
    rcases List.mem_singleton.mp h with rfl
    exact Or.inl rfl
  | cons b rest ih =>
    obtain ⟨k, old⟩ := b
    simp only [updateChannel] at h
    split at h
    · rename_i hk
      rcases List.mem_cons.mp h with rfl | htail
      · subst hk; exact Or.inl rfl
      · exact Or.inr (List.mem_cons_of_mem _ htail)
    · rcases List.mem_cons.mp h with rfl | htail
      · exact Or.inr (List.mem_cons_self _ _)
      · rcases ih htail with heq | hmem
        · exact Or.inl heq
        · exact Or.inr (List.mem_cons_of_mem _ hmem)

-- The extractor loop returns `ok` on every input: each fatal case is a
-- clear-and-break, never an `Err` or a `panic!`.
theorem processChannels_ok (chs : List GltfChannel) :
    ∀ acc, ∃ m, processChannels acc chs = .ok m := by
  induction chs with
  | nil => intro acc; exact ⟨acc, rfl⟩
  | cons channel rest ih =>
    intro acc
    obtain ⟨inputs, outputs, target⟩ := channel
    cases inputs with
    | none => exact ⟨[], rfl⟩
    | some ti =>
      cases ti with
      | sparse => exact ⟨[], rfl⟩
      | standard timestamps =>
        cases outputs with
        | none => exact ⟨[], rfl⟩
        | some outs =>
          cases hdec : decodeOutputs outs with
          | explosion =>
            refine ⟨[], ?_⟩
            simp [processChannels, hdec]
          | translation tvs =>
            simp only [processChannels]
            rw [hdec]
            simp only [reduceCtorEq, if_false]
            split
            · exact ⟨[], rfl⟩
            · split
              · exact ⟨[], rfl⟩
              · exact ih _
          | rotation rvs =>
            simp only [processChannels]
            rw [hdec]
            simp only [reduceCtorEq, if_false]
            split
            · exact ⟨[], rfl⟩
            · split
              · exact ⟨[], rfl⟩
              · exact ih _
          | scale svs =>
            simp only [processChannels]
            rw [hdec]
            simp only [reduceCtorEq, if_false]
            split
            · exact ⟨[], rfl⟩
            · split
              · exact ⟨[], rfl⟩
              · exact ih _
          | weights wvs =>
            simp only [processChannels]
            rw [hdec]
            simp only [reduceCtorEq, if_false]
            split
            · exact ⟨[], rfl⟩
            · exact ih _

-- The extractor only ever emits well-formed mappings: values and
-- timestamps are stored together after the length check (weights aside,
-- which the finalizer never length-checks).
theorem processChannels_goodLens (chs : List GltfChannel) :
    ∀ acc m, goodLens acc → processChannels acc chs = .ok m → goodLens m := by
  induction chs with
  | nil =>
    intro acc m hg h
    simp only [processChannels, RustResult.ok.injEq] at h
    subst h; exact hg
  | cons channel rest ih =>
    intro acc m hg h
    obtain ⟨inputs, outputs, target⟩ := channel
    cases inputs with
    | none =>
      simp only [processChannels, RustResult.ok.injEq] at h
      subst h; intro p hp; simp at hp
    | some ti =>
      cases ti with
      | sparse =>
        simp only [processChannels, RustResult.ok.injEq] at h
        subst h; intro p hp; simp at hp
      | standard timestamps =>
        cases outputs with
        | none =>
          simp only [processChannels, RustResult.ok.injEq] at h
          subst h; intro p hp; simp at hp
        | some outs =>
          cases hdec : decodeOutputs outs with
          | explosion =>
            simp only [processChannels] at h
            rw [hdec, if_pos rfl, RustResult.ok.injEq] at h
            subst h; intro p hp; simp at hp
          | translation tvs =>
            simp only [processChannels] at h
            rw [hdec] at h
            simp only [reduceCtorEq, if_false] at h
            split at h
            · rw [RustResult.ok.injEq] at h
              subst h; intro p hp; simp at hp
            · split at h
              · rw [RustResult.ok.injEq] at h
                subst h; intro p hp; simp at hp
              · rename_i hdup hlen
                refine ih _ m ?_ h
                intro p hp
                rcases mem_updateChannel hp with rfl | hmem
                · obtain ⟨g1, g2, g3⟩ := lookupOrDefault_good target hg
                  refine ⟨?_, g2, g3⟩
                  simpa using hlen
                · exact hg p hmem
          | rotation rvs =>
            simp only [processChannels] at h
            rw [hdec] at h
            simp only [reduceCtorEq, if_false] at h
            split at h
            · rw [RustResult.ok.injEq] at h
              subst h; intro p hp; simp at hp
            · split at h
              · rw [RustResult.ok.injEq] at h
                subst h; intro p hp; simp at hp
              · rename_i hdup hlen
                refine ih _ m ?_ h
                intro p hp
                rcases mem_updateChannel hp with rfl | hmem
                · obtain ⟨g1, g2, g3⟩ := lookupOrDefault_good target hg
                  refine ⟨g1, ?_, g3⟩
                  simpa using hlen
                · exact hg p hmem
          | scale svs =>
            simp only [processChannels] at h
            rw [hdec] at h
            simp only [reduceCtorEq, if_false] at h
            split at h
            · rw [RustResult.ok.injEq] at h
              subst h; intro p hp; simp at hp
            · split at h
              · rw [RustResult.ok.injEq] at h
                subst h; intro p hp; simp at hp
              · rename_i hdup hlen
                refine ih _ m ?_ h
                intro p hp
                rcases mem_updateChannel hp with rfl | hmem
                · obtain ⟨g1, g2, g3⟩ := lookupOrDefault_good target hg
                  refine ⟨g1, g2, ?_⟩
                  simpa using hlen
                · exact hg p hmem
          | weights wvs =>
            simp only [processChannels] at h
            rw [hdec] at h
            simp only [reduceCtorEq, if_false] at h
            split at h
            · rw [RustResult.ok.injEq] at h
              subst h; intro p hp; simp at hp
            · refine ih _ m ?_ h
              intro p hp
              rcases mem_updateChannel hp with rfl | hmem
              · exact lookupOrDefault_good target hg
              · exact hg p hmem

-- With matching raw lengths, a component resample cannot return the error.
theorem resampleComponent_ok_of_len_eq {V : Type} (compName : String) (id : ℤ)
    (ident : V) (lerp : V → V → ℚ → V) {vals : List V} {ts : List ℚ}
    (max_time min_distance : ℚ) (rf : ℕ) (hlen : ts.length = vals.length) :
    ∃ pr, resampleComponent compName id ident lerp vals ts max_time min_distance rf
      = .ok pr := by
  simp only [resampleComponent]
  rw [if_neg (not_not_intro hlen)]
  split
  · exact ⟨_, rfl⟩
  · split
    · exact ⟨_, rfl⟩
    · split
      · exact ⟨_, rfl⟩
      · split
        · exact ⟨_, rfl⟩
        · exact ⟨_, rfl⟩

-- The post-resample assertions pass on arrays of the right lengths.
theorem checkLens_ok {V : Type} (compName : String) {ts : List ℚ} {vs : List V}
    {rf : ℕ} (h1 : ts.length = rf) (h2 : vs.length = rf) :
    checkLens compName ts vs rf = .ok () := by
  unfold checkLens
  rw [if_neg (by omega), if_neg (by omega)]

-- A raw record with matching lengths finalizes without error or panic.
theorem finalizeChannel_ok_of_good (id : ℤ) (animation : BoneAnimationChannel)
    (max_time min_distance : ℚ) (rf : ℕ)
    (h1 : animation.translations.length = animation.translation_timestamps.length)
    (h2 : animation.rotations.length = animation.rotation_timestamps.length)
    (h3 : animation.scales.length = animation.scale_timestamps.length) :
    ∃ ch, finalizeChannel id animation max_time min_distance rf = .ok ch := by
  obtain ⟨⟨tts, tvs⟩, ht⟩ := resampleComponent_ok_of_len_eq "translation" id
    Vec3.zero Vec3.lerp max_time min_distance rf h1.symm
  obtain ⟨⟨rts, rvs⟩, hr⟩ := resampleComponent_ok_of_len_eq "rotation" id
    Quat.identity Quat.lerp max_time min_distance rf h2.symm
  obtain ⟨⟨sts, svs⟩, hs⟩ := resampleComponent_ok_of_len_eq "scale" id
    Vec3.one Vec3.lerp max_time min_distance rf h3.symm
  obtain ⟨ht1, ht2⟩ := resampleComponent_ok_lengths ht
  obtain ⟨hr1, hr2⟩ := resampleComponent_ok_lengths hr
  obtain ⟨hs1, hs2⟩ := resampleComponent_ok_lengths hs
  refine ⟨{ translations := tvs, translation_timestamps := tts,
            rotations := rvs, rotation_timestamps := rts,
            scales := svs, scale_timestamps := sts,
            weights := [], weight_timestamps := [] }, ?_⟩
  unfold finalizeChannel
  rw [ht, rr_bind_ok, checkLens_ok "translation" ht1 ht2, rr_bind_ok,
    hr, rr_bind_ok, checkLens_ok "rotation" hr1 hr2, rr_bind_ok,
    hs, rr_bind_ok, checkLens_ok "scale" hs1 hs2, rr_bind_ok, rr_pure_eq_ok]

-- The whole finalization loop succeeds on any well-formed raw mapping.
theorem finalizeList_ok_of_goodLens (max_time min_distance : ℚ) (rf : ℕ)
    (bones : List (ℤ × BoneAnimationChannel)) (hg : goodLens bones) :
    ∃ out, finalizeList max_time min_distance rf bones = .ok out := by
  induction bones with
  | nil => exact ⟨[], rfl⟩
  | cons b rest ih =>
    obtain ⟨id, animation⟩ := b
    obtain ⟨g1, g2, g3⟩ := hg (id, animation) (List.mem_cons_self _ _)
    obtain ⟨ch, hch⟩ := finalizeChannel_ok_of_good id animation max_time min_distance rf
      g1 g2 g3
    obtain ⟨out, hout⟩ := ih fun p hp => hg p (List.mem_cons_of_mem _ hp)
    refine ⟨(id, ch) :: out, ?_⟩
    simp only [finalizeList]
    rw [hch, rr_bind_ok, hout, rr_bind_ok, rr_pure_eq_ok]

/-- Claim C2 (amended): fatal conditions inside the channel EXTRACTOR abort
only the animation portion: the integrated skinned pipeline always hands
the geometry back to the caller together with finalized animations and
`is_animated = true` (a fatal extractor condition yields the empty mapping,
which finalizes trivially).  By contrast, a fatal condition inside the
RESAMPLER does not degrade gracefully: a raw length mismatch makes the
whole load return an error without the geometry (see the counterexample
theorem), and the post-resample length assertions are a `panic!`; for
mappings actually produced by the extractor those conditions cannot
occur. -/
theorem extractor_pipeline_returns_geometry {G : Type} (geometry : G)
    (channels : List GltfChannel) :
    ∃ fin, loadFull geometry channels = .ok (geometry, fin, true) := by
  obtain ⟨m, hm⟩ := processChannels_ok channels []
  have hg : goodLens m :=
    processChannels_goodLens channels [] m (by intro p hp; simp at hp) hm
  obtain ⟨fin, hfin⟩ := finalizeList_ok_of_goodLens
    (computeTiming m).max_time (computeTiming m).min_distance
    (required_frames (computeTiming m).max_time (computeTiming m).min_distance) m hg
  have hfa : finalize_animations m = .ok fin := by
    unfold finalize_animations
    exact hfin
  have hload : loadFull geometry channels = loadSkinned geometry m := by
    unfold loadFull grab_animations
    rw [hm]
  refine ⟨fin, ?_⟩
  rw [hload]
  unfold loadSkinned
  rw [hfa]

/-- A raw mapping with a value/timestamp length mismatch (one translation,
zero translation timestamps) for node 0. -/
def bonesC2 : List (ℤ × BoneAnimationChannel) :=
  [(0, { BoneAnimationChannel.new with translations := [Vec3.zero] })]

/-- Counterexample to claim C2 as stated: a fatal condition inside the
resampler (raw value/timestamp length mismatch) makes the whole load
return an `Err`; the geometry (here the stand-in value `42`) is NOT
returned to the caller. -/
theorem resampler_error_discards_geometry :
    loadSkinned (42 : ℕ) bonesC2
      = .err ("Unequal animation " ++ "translation" ++ " lengths in channel "
          ++ toString (0 : ℤ) ++ ".") := by
  norm_num [loadSkinned, finalize_animations, finalizeList, finalizeChannel,
    resampleComponent, bonesC2, BoneAnimationChannel.new, rr_bind_err]

/-- Claim C9 (amended): the extractor stores morph-target weights in the
raw records, but the resampler drops them: every finalized channel has
empty `weights` and `weight_timestamps`, whatever the raw record held. -/
theorem finalized_weights_always_empty
    {bones out : List (ℤ × BoneAnimationChannel)}
    (h : finalize_animations bones = .ok out) :
    ∀ p ∈ out, p.2.weights = [] ∧ p.2.weight_timestamps = [] := by
  unfold finalize_animations at h
  intro p hp
  obtain ⟨_, _, _, _, _, _, h7, h8⟩ := finalizeList_ok_shape h p hp
  exact ⟨h7, h8⟩

/-- A raw mapping whose single node carries weight data. -/
def bones9 : List (ℤ × BoneAnimationChannel) :=
  [(0, { BoneAnimationChannel.new with weights := [1], weight_timestamps := [0] })]

/-- The finalized channel `finalize_animations` produces for `bones9`. -/
def ch9 : BoneAnimationChannel :=
  { translations := [Vec3.zero], translation_timestamps := [0],
    rotations := [Quat.identity], rotation_timestamps := [0],
    scales := [Vec3.one], scale_timestamps := [0],
    weights := [], weight_timestamps := [] }

/-- Counterexample to claim C9 as stated: node 0's raw record holds the
weight `1`, yet its finalized output channel has empty weights — the raw
weights do not appear in the finalized output. -/
theorem weights_dropped_by_finalizer :
    bones9 = [((0 : ℤ),
      { BoneAnimationChannel.new with weights := [1], weight_timestamps := [0] })] ∧
    finalize_animations bones9 = .ok [((0 : ℤ), ch9)] ∧
    ch9.weights = ([] : List ℚ) ∧
    ([] : List ℚ) ≠ [1] := by
  refine ⟨rfl, ?_, rfl, by simp⟩
  norm_num [finalize_animations, finalizeList, finalizeChannel, resampleComponent,
    checkLens, computeTiming, devolve_timestamp_data, devolveGo, required_frames,
    requiredFramesOf, roundRust, truncQ, into_precision, f32max, f32min,
    bones9, ch9, BoneAnimationChannel.new, Vec3.zero, Vec3.one, Quat.identity,
    List.range_succ, rr_bind_ok, rr_pure_eq_ok]

/-- Witness for the amended claim C9 at a concrete accepted input. -/
theorem finalized_weights_always_empty_witness :
    finalize_animations bones9 = .ok [((0 : ℤ), ch9)] ∧
    ∀ p ∈ [((0 : ℤ), ch9)], p.2.weights = [] ∧ p.2.weight_timestamps = [] := by
  have h : finalize_animations bones9 = .ok [((0 : ℤ), ch9)] := by
    norm_num [finalize_animations, finalizeList, finalizeChannel, resampleComponent,
      checkLens, computeTiming, devolve_timestamp_data, devolveGo, required_frames,
      requiredFramesOf, roundRust, truncQ, into_precision, f32max, f32min,
      bones9, ch9, BoneAnimationChannel.new, Vec3.zero, Vec3.one, Quat.identity,
      List.range_succ, rr_bind_ok, rr_pure_eq_ok]
  exact ⟨h, finalized_weights_always_empty h⟩


/-- Claim C5: the channel extractor never panics (its `Explosion` panic arm
is unreachable, being guarded by the `blew_up` early exit), and on every
malformed-but-detectable channel (sparse or absent timestamp accessor,
absent or unsupported output payload, duplicate channel for an
already-populated component, value/timestamp length mismatch) it stops
processing -- the remaining channels are irrelevant -- and returns the
empty mapping.  The embedding is a pure function, so it has no side
effects beyond the returned mapping. -/
theorem extractor_no_panic_and_empty_on_fatal :
    (∀ (acc : List (ℤ × BoneAnimationChannel)) (chs : List GltfChannel) (s : String),
      processChannels acc chs ≠ .panicked s) ∧
    (∀ (acc : List (ℤ × BoneAnimationChannel)) (channel : GltfChannel)
      (rest : List GltfChannel), channelFatal acc channel = true →
      processChannels acc (channel :: rest) = .ok []) := by
  constructor
  · intro acc chs s hcontra
    obtain ⟨m, hm⟩ := processChannels_ok chs acc
    rw [hm] at hcontra
    simp at hcontra
  · intro acc channel rest hfatal
    obtain ⟨inputs, outputs, target⟩ := channel
    cases inputs with
    | none => rfl
    | some ti =>
      cases ti with
      | sparse => rfl
      | standard timestamps =>
        cases outputs with
        | none => rfl
        | some outs =>
          cases hdec : decodeOutputs outs with
          | explosion =>
            simp only [processChannels]
            rw [hdec, if_pos rfl]
          | translation tvs =>
            simp only [channelFatal, hdec] at hfatal
            rw [Bool.or_eq_true] at hfatal
            simp only [processChannels]
            rw [hdec]
            simp only [reduceCtorEq, if_false]
            rcases hfatal with hdup | hlen
            · rw [if_pos (by simpa [List.isEmpty_iff] using hdup)]
            · by_cases hdup2 : (lookupOrDefault acc target).translations ≠ []
              · rw [if_pos hdup2]
              · rw [if_neg hdup2, if_pos (by simpa using hlen)]
          | rotation rvs =>
            simp only [channelFatal, hdec] at hfatal
            rw [Bool.or_eq_true] at hfatal
            simp only [processChannels]
            rw [hdec]
            simp only [reduceCtorEq, if_false]
            rcases hfatal with hdup | hlen
            · rw [if_pos (by simpa [List.isEmpty_iff] using hdup)]
            · by_cases hdup2 : (lookupOrDefault acc target).rotations ≠ []
              · rw [if_pos hdup2]
              · rw [if_neg hdup2, if_pos (by simpa using hlen)]
          | scale svs =>
            simp only [channelFatal, hdec] at hfatal
            rw [Bool.or_eq_true] at hfatal
            simp only [processChannels]
            rw [hdec]
            simp only [reduceCtorEq, if_false]
            rcases hfatal with hdup | hlen
            · rw [if_pos (by simpa [List.isEmpty_iff] using hdup)]
            · by_cases hdup2 : (lookupOrDefault acc target).scales ≠ []
              · rw [if_pos hdup2]
              · rw [if_neg hdup2, if_pos (by simpa using hlen)]
          | weights wvs =>
            simp only [channelFatal, hdec] at hfatal
            simp only [processChannels]
            rw [hdec]
            simp only [reduceCtorEq, if_false]
            rw [if_pos (by simpa [List.isEmpty_iff] using hfatal)]

/-- A channel whose timestamp accessor is sparse. -/
def chSparse : GltfChannel := ⟨some .sparse, some (.translations []), 0⟩

/-- Witness for claim C5 at a concrete sparse channel. -/
theorem extractor_no_panic_and_empty_on_fatal_witness :
    channelFatal [] chSparse = true ∧
    processChannels [] [chSparse] = .ok [] :=
  ⟨by decide, extractor_no_panic_and_empty_on_fatal.2 [] chSparse [] (by decide)⟩

-- Bounds of the three general-case search loops.
theorem findFrameKey_lt {p : ℤ} {ts : List ℚ} {k : ℕ}
    (h : findFrameKey p ts = some k) : k < ts.length := by
  induction ts generalizing k with
  | nil => simp [findFrameKey] at h
  | cons g rest ih =>
    simp only [findFrameKey] at h
    split at h
    · rw [Option.some.injEq] at h
      subst h; simp
    · rw [Option.map_eq_some'] at h
      obtain ⟨k', hk', hkk⟩ := h
      subst hkk
      have := ih hk'
      simp only [List.length_cons]
      omega

theorem ltPrefixLen_le (p : ℤ) (ts : List ℚ) : ltPrefixLen p ts ≤ ts.length := by
  induction ts with
  | nil => simp [ltPrefixLen]
  | cons g rest ih =>
    simp only [ltPrefixLen, List.length_cons]
    split
    · omega
    · omega

theorem followingFrame_lt {p : ℤ} {ts : List ℚ} {j : ℕ}
    (h : followingFrame p ts = some j) : j < ts.length := by
  induction ts generalizing j with
  | nil => simp [followingFrame] at h
  | cons g rest ih =>
    simp only [followingFrame] at h
    split at h
    · rw [Option.some.injEq] at h
      subst h; simp
    · rw [Option.map_eq_some'] at h
      obtain ⟨j', hj', hjj⟩ := h
      subst hjj
      have := ih hj'
      simp only [List.length_cons]
      omega

/-- Claim C10: for a raw component with value and timestamp arrays of equal
length at least 2, the general resampling case indexes only in bounds: the
index-1 fallback at precision key 0 is in bounds, every leading-frame and
following-frame index lies below the source length (also after the
defaults `leading_frame = Some(0)` and `following_frame = leading_frame`
that make the panic match arms unreachable), and every exact
precision-key match is in bounds. -/
theorem general_case_indexing_in_bounds {V : Type} (vals : List V) (ts : List ℚ)
    (p : ℤ) (hlen : ts.length = vals.length) (h2 : 2 ≤ ts.length) :
    1 < vals.length ∧
    (∀ k, findFrameKey p ts = some k → k < ts.length ∧ k < vals.length) ∧
    ((leadingFrame p ts).getD 0 < ts.length ∧
      (leadingFrame p ts).getD 0 < vals.length) ∧
    (∀ j, followingFrame p ts = some j → j < ts.length ∧ j < vals.length) ∧
    ((followingFrame p ts).getD ((leadingFrame p ts).getD 0) < ts.length ∧
      (followingFrame p ts).getD ((leadingFrame p ts).getD 0) < vals.length) := by
  have hlead : (leadingFrame p ts).getD 0 < ts.length := by
    unfold leadingFrame
    have := ltPrefixLen_le p ts
    split
    · simp only [Option.getD_none]
      omega
    · simp only [Option.getD_some]
      omega
  have hfol : (followingFrame p ts).getD ((leadingFrame p ts).getD 0) < ts.length := by
    cases hf : followingFrame p ts with
    | none => simpa using hlead
    | some j => simpa using followingFrame_lt hf
  refine ⟨by omega, ?_, ⟨hlead, by omega⟩, ?_, ⟨hfol, by omega⟩⟩
  · intro k hk
    have := findFrameKey_lt hk
    omega
  · intro j hj
    have := followingFrame_lt hj
    omega

/-- Witness for claim C10 at a concrete two-keyframe source. -/
theorem general_case_indexing_in_bounds_witness :
    (([0, 1] : List ℚ).length = ([Vec3.zero, Vec3.one] : List Vec3).length) ∧
    (1 < ([Vec3.zero, Vec3.one] : List Vec3).length ∧
    (∀ k, findFrameKey 7 [0, 1] = some k → k < ([0, 1] : List ℚ).length ∧
      k < ([Vec3.zero, Vec3.one] : List Vec3).length) ∧
    ((leadingFrame 7 [0, 1]).getD 0 < ([0, 1] : List ℚ).length ∧
      (leadingFrame 7 [0, 1]).getD 0 < ([Vec3.zero, Vec3.one] : List Vec3).length) ∧
    (∀ j, followingFrame 7 [0, 1] = some j → j < ([0, 1] : List ℚ).length ∧
      j < ([Vec3.zero, Vec3.one] : List Vec3).length) ∧
    ((followingFrame 7 [0, 1]).getD ((leadingFrame 7 [0, 1]).getD 0)
        < ([0, 1] : List ℚ).length ∧
      (followingFrame 7 [0, 1]).getD ((leadingFrame 7 [0, 1]).getD 0)
        < ([Vec3.zero, Vec3.one] : List Vec3).length)) :=
  ⟨rfl, general_case_indexing_in_bounds [Vec3.zero, Vec3.one] [0, 1] 7 rfl (by simp)⟩

/-- Claim C8 (amended): for a source component with AT LEAST TWO keyframes
whose first timestamp has precision key 0, whose last timestamp's
precision key equals `max_time`'s, and whose length equals
`required_frames`, resampling returns the source timestamp and value
arrays unchanged (the raw-add branch).  Without the length-2 lower bound
the claim fails: a single-keyframe source satisfying the same precision
conditions with `required_frames = 1` takes the broadcast branch, which
rewrites the timestamp (see the counterexample theorem). -/
theorem raw_add_identity_of_two_le_length {V : Type} (compName : String) (id : ℤ)
    (ident : V) (lerp : V → V → ℚ → V) {vals : List V} {ts : List ℚ}
    (max_time min_distance : ℚ) {rf : ℕ}
    (h2 : 2 ≤ ts.length) (hlen : ts.length = vals.length)
    (hfirst : into_precision (ts.headD 0) = 0)
    (hlast : into_precision (ts.getLastD 0) = into_precision max_time)
    (hrf : ts.length = rf) :
    resampleComponent compName id ident lerp vals ts max_time min_distance rf
      = .ok (ts, vals) := by
  have hne : ¬ ts.isEmpty = true := by
    cases ts with
    | nil => simp at h2
    | cons a rest => simp
  have hone : ¬ ts.length = 1 := by omega
  have hcond : ((into_precision (ts.headD 0) == 0 &&
      into_precision (ts.getLastD 0) == into_precision max_time) &&
        ts.length == rf) = true := by
    simp only [Bool.and_eq_true, beq_iff_eq]
    exact ⟨⟨hfirst, hlast⟩, hrf⟩
  simp only [resampleComponent]
  rw [if_neg (not_not_intro hlen), if_neg hne, if_neg hone, if_pos hcond]

/-- Witness for the amended claim C8 at a concrete two-keyframe source. -/
theorem raw_add_identity_witness :
    (2 ≤ ([0, 1] : List ℚ).length) ∧
    into_precision (([0, 1] : List ℚ).headD 0) = 0 ∧
    into_precision (([0, 1] : List ℚ).getLastD 0) = into_precision 1 ∧
    resampleComponent "translation" 0 Vec3.zero Vec3.lerp
      [Vec3.zero, Vec3.one] [0, 1] 1 1 2 = .ok ([0, 1], [Vec3.zero, Vec3.one]) := by
  have hfirst : into_precision (([0, 1] : List ℚ).headD 0) = 0 := by
    norm_num [into_precision, truncQ]
  have hlast : into_precision (([0, 1] : List ℚ).getLastD 0) = into_precision 1 := by
    norm_num [List.getLastD]
  exact ⟨by simp, hfirst, hlast,
    raw_add_identity_of_two_le_length "translation" 0 Vec3.zero Vec3.lerp 1 1
      (by simp) rfl hfirst hlast rfl⟩

/-- A translation value used by the C8 counterexample. -/
def v8 : Vec3 := ⟨1, 2, 3⟩

/-- A raw mapping whose single translation keyframe sits at `1/1000000`:
its precision key is 0, `max_time = 1/1000000` (same precision key), and
`required_frames = 1` equals the array length, yet resampling rewrites the
timestamp array. -/
def bones8 : List (ℤ × BoneAnimationChannel) :=
  [(0, { BoneAnimationChannel.new with
          translations := [v8], translation_timestamps := [1 / 1000000] })]

/-- The finalized channel `finalize_animations` produces for `bones8`. -/
def ch8 : BoneAnimationChannel :=
  { translations := [v8], translation_timestamps := [0],
    rotations := [Quat.identity], rotation_timestamps := [0],
    scales := [Vec3.one], scale_timestamps := [0],
    weights := [], weight_timestamps := [] }

/-- Counterexample to claim C8 as stated: `bones8`'s translation component
satisfies all three hypotheses of the claim (first precision key 0, last
precision key equal to `max_time`'s, length equal to `required_frames`),
but the resampled timestamp array is `[0]`, not the source `[1/1000000]`.
(In `f32`, `1e-6 - f32::MIN` rounds to `f32::MAX` exactly as in this exact
model, so the branch selection is the same.) -/
theorem raw_add_identity_fails_at_single_frame :
    bones8 = [((0 : ℤ), { BoneAnimationChannel.new with
      translations := [v8], translation_timestamps := [1 / 1000000] })] ∧
    requiredFramesOf bones8 = 1 ∧
    (computeTiming bones8).max_time = 1 / 1000000 ∧
    into_precision ((1 : ℚ) / 1000000) = 0 ∧
    finalize_animations bones8 = .ok [((0 : ℤ), ch8)] ∧
    ch8.translation_timestamps = [0] ∧
    ([0] : List ℚ) ≠ [1 / 1000000] := by
  refine ⟨rfl, ?_, ?_, ?_, ?_, rfl, ?_⟩
  · norm_num [requiredFramesOf, required_frames, computeTiming,
      devolve_timestamp_data, devolveGo, roundRust, f32max, f32min, bones8,
      BoneAnimationChannel.new]
  · norm_num [computeTiming, devolve_timestamp_data, devolveGo, f32max, f32min,
      bones8, BoneAnimationChannel.new]
  · norm_num [into_precision, truncQ]
  · norm_num [finalize_animations, finalizeList, finalizeChannel, resampleComponent,
      checkLens, computeTiming, devolve_timestamp_data, devolveGo, required_frames,
      requiredFramesOf, roundRust, truncQ, into_precision, f32max, f32min,
      bones8, ch8, v8, BoneAnimationChannel.new, Vec3.zero, Vec3.one, Quat.identity,
      List.range_succ, rr_bind_ok, rr_pure_eq_ok]
  · intro hcontra
    have := List.head_eq_of_cons_eq hcontra
    norm_num at this

-- An exact precision-key match reuses a source timestamp with the same key.
theorem findFrameKey_precision {p : ℤ} {ts : List ℚ} {k : ℕ}
    (h : findFrameKey p ts = some k) : into_precision (ts.getD k 0) = p := by
  induction ts generalizing k with
  | nil => simp [findFrameKey] at h
  | cons g rest ih =>
    simp only [findFrameKey] at h
    split at h
    · rename_i hg
      rw [Option.some.injEq] at h
      subst h
      simpa using hg
    · rw [Option.map_eq_some'] at h
      obtain ⟨k', hk', hkk⟩ := h
      subst hkk
      simpa using ih hk'

-- Every general-case output timestamp carries the grid slot's precision key.
theorem generalStep_fst_precision {V : Type} (ident : V) (lerp : V → V → ℚ → V)
    (vals : List V) (ts : List ℚ) (max_time : ℚ) (rf i : ℕ) :
    into_precision ((generalStep ident lerp vals ts max_time rf i).1)
      = into_precision (((i : ℚ) / ((rf - 1 : ℕ) : ℚ)) * max_time) := by
  simp only [generalStep]
  cases hf : findFrameKey
      (into_precision (((i : ℚ) / ((rf - 1 : ℕ) : ℚ)) * max_time)) ts with
  | some key =>
    exact findFrameKey_precision hf
  | none =>
    simp only [apply_ite Prod.fst, ite_self]

/-- Claim C4 (amended): the timestamp array a successful component
resample produces depends on the branch taken: the empty and
single-keyframe branches emit the grid `i * min_distance`; the raw-add
branch copies the SOURCE timestamps verbatim; and the two-keyframe and
general branches emit stamps whose precision keys equal those of
`i * (max_time / (required_frames - 1))` (the general case may substitute
an exactly-matching source stamp).  The three per-node arrays therefore
need not be equal to each other, nor to one shared grid (see the
counterexample theorem). -/
theorem timestamp_grid_by_branch {V : Type} {compName : String} {id : ℤ}
    {ident : V} {lerp : V → V → ℚ → V} {vals : List V} {ts : List ℚ}
    {max_time min_distance : ℚ} {rf : ℕ} {outTs : List ℚ} {outVals : List V}
    (h : resampleComponent compName id ident lerp vals ts max_time min_distance rf
      = .ok (outTs, outVals)) :
    outTs = (List.range rf).map (fun (i : ℕ) => (i : ℚ) * min_distance) ∨
    outTs = ts ∨
    (∀ i < rf, into_precision (outTs.getD i 0)
      = into_precision (((i : ℚ) / ((rf - 1 : ℕ) : ℚ)) * max_time)) := by
  simp only [resampleComponent] at h
  split at h
  · simp at h
  · split at h
    · rw [RustResult.ok.injEq, Prod.mk.injEq] at h
      obtain ⟨h1, h2⟩ := h
      subst h1
      left
      simp [List.unzip_fst, List.map_map, Function.comp]
    · split at h
      · rw [RustResult.ok.injEq, Prod.mk.injEq] at h
        obtain ⟨h1, h2⟩ := h
        subst h1
        left
        simp [List.unzip_fst, List.map_map, Function.comp]
      · split at h
        · rw [RustResult.ok.injEq, Prod.mk.injEq] at h
          obtain ⟨h1, h2⟩ := h
          subst h1
          right; left; rfl
        · split at h
          · rw [RustResult.ok.injEq, Prod.mk.injEq] at h
            obtain ⟨h1, h2⟩ := h
            subst h1
            right; right
            intro i hi
            rw [List.unzip_fst, List.map_map, getD_map_range _ _ _ _ hi]
            rfl
          · rw [RustResult.ok.injEq, Prod.mk.injEq] at h
            obtain ⟨h1, h2⟩ := h
            subst h1
            right; right
            intro i hi
            rw [List.unzip_fst, List.map_map, getD_map_range _ _ _ _ hi]
            exact generalStep_fst_precision ident lerp vals ts max_time rf i

/-- Witness for the amended claim C4: the empty branch at concrete input. -/
theorem timestamp_grid_by_branch_witness :
    resampleComponent "translation" 0 Vec3.zero Vec3.lerp
      ([] : List Vec3) ([] : List ℚ) 1 1 2 = .ok ([0, 1], [Vec3.zero, Vec3.zero]) ∧
    (([0, 1] : List ℚ)
        = (List.range 2).map (fun (i : ℕ) => (i : ℚ) * 1) ∨
      ([0, 1] : List ℚ) = ([] : List ℚ) ∨
      (∀ i < 2, into_precision ((([0, 1] : List ℚ)).getD i 0)
        = into_precision (((i : ℚ) / ((2 - 1 : ℕ) : ℚ)) * 1))) := by
  have h : resampleComponent "translation" 0 Vec3.zero Vec3.lerp
      ([] : List Vec3) ([] : List ℚ) 1 1 2
        = .ok ([0, 1], [Vec3.zero, Vec3.zero]) := by
    norm_num [resampleComponent, List.range_succ]
  exact ⟨h, timestamp_grid_by_branch h⟩

/-- A node whose rotation has three keyframes `[0, 1/2, 6/5]`
(`min_distance = 1/2`, `max_time = 6/5`, `required_frames = 3`) and no
translation/scale keyframes. -/
def bones4 : List (ℤ × BoneAnimationChannel) :=
  [(0, { BoneAnimationChannel.new with
          rotations := [Quat.identity, Quat.identity, Quat.identity],
          rotation_timestamps := [0, 1 / 2, 6 / 5] })]

/-- The finalized channel `finalize_animations` produces for `bones4`. -/
def ch4 : BoneAnimationChannel :=
  { translations := [Vec3.zero, Vec3.zero, Vec3.zero],
    translation_timestamps := [0, 1 / 2, 1],
    rotations := [Quat.identity, Quat.identity, Quat.identity],
    rotation_timestamps := [0, 1 / 2, 6 / 5],
    scales := [Vec3.one, Vec3.one, Vec3.one],
    scale_timestamps := [0, 1 / 2, 1],
    weights := [], weight_timestamps := [] }

/-- Counterexample to claim C4 as stated: for `bones4` the finalized
translation timestamps (empty branch: `i * min_distance = [0, 1/2, 1]`)
differ from the rotation timestamps (raw-add branch: `[0, 1/2, 6/5]`) and
from the claim's shared grid `i * (max_time / (required_frames - 1)) =
[0, 3/5, 6/5]` — the discrepancies are `1/5` and `1/10`, far beyond
floating-point tolerance. -/
theorem timestamp_grids_disagree_across_branches :
    finalize_animations bones4 = .ok [((0 : ℤ), ch4)] ∧
    requiredFramesOf bones4 = 3 ∧
    (computeTiming bones4).max_time = 6 / 5 ∧
    ch4.translation_timestamps ≠ ch4.rotation_timestamps ∧
    ch4.translation_timestamps
      ≠ (List.range 3).map (fun (i : ℕ) => (i : ℚ) * ((6 / 5) / ((3 : ℚ) - 1))) := by
  refine ⟨?_, ?_, ?_, ?_, ?_⟩
  · norm_num [finalize_animations, finalizeList, finalizeChannel, resampleComponent,
      checkLens, computeTiming, devolve_timestamp_data, devolveGo, required_frames,
      requiredFramesOf, roundRust, truncQ, into_precision, f32max, f32min, Int.toNat,
      bones4, ch4, BoneAnimationChannel.new, Vec3.zero, Vec3.one, Quat.identity,
      List.range_succ, rr_bind_ok, rr_pure_eq_ok]
  · norm_num [requiredFramesOf, required_frames, computeTiming,
      devolve_timestamp_data, devolveGo, roundRust, f32max, f32min, Int.toNat, bones4,
      BoneAnimationChannel.new]
  · norm_num [computeTiming, devolve_timestamp_data, devolveGo, f32max, f32min,
      bones4, BoneAnimationChannel.new]
  · norm_num [ch4]
  · norm_num [ch4, List.range_succ]

/-- A node whose rotation spans `[0, 1]` while its scale spans `[0, 5]`:
only a scan of `scale_timestamps` can see `max_time = 5`. -/
def bones3 : List (ℤ × BoneAnimationChannel) :=
  [(0, { BoneAnimationChannel.new with
          rotations := [Quat.identity, Quat.identity],
          rotation_timestamps := [0, 1],
          scales := [Vec3.one, Vec3.one],
          scale_timestamps := [0, 5] })]

/-- Claim C3 (code bug): the spec says the timing parameters are computed
by scanning all FOUR timestamp arrays of every record, and the source's
own comment above the third closure call reads "Scale timestamps." — but
the call passes `animation.rotation_timestamps` again, so the scale array
is never scanned.  At `bones3` the code-faithful scan reports
`max_time = 1` while the four-array scan the spec (and the source comment)
describes reports `max_time = 5`. -/
theorem timing_scan_skips_scale_timestamps :
    (computeTiming bones3).max_time = 1 ∧
    (computeTimingSpec bones3).max_time = 5 ∧
    computeTiming bones3 ≠ computeTimingSpec bones3 := by
  have h1 : computeTiming bones3 = ⟨0, 1, 1⟩ := by
    norm_num [computeTiming, devolve_timestamp_data, devolveGo, f32max, f32min,
      bones3, BoneAnimationChannel.new]
  have h2 : computeTimingSpec bones3 = ⟨0, 5, 1⟩ := by
    norm_num [computeTimingSpec, devolve_timestamp_data, devolveGo, f32max, f32min,
      bones3, BoneAnimationChannel.new]
  refine ⟨by rw [h1], by rw [h2], by rw [h1, h2]; simp⟩

/-- A node with two coincident translation keyframes at `t = 0`:
`min_distance = 0`. -/
def bones7 : List (ℤ × BoneAnimationChannel) :=
  [(0, { BoneAnimationChannel.new with
          translations := [Vec3.zero, Vec3.one, Vec3.zero],
          translation_timestamps := [0, 0, 1] })]

/-- Claim C7 (code bug): with `min_distance = 0` the pipeline surfaces no
error: `required_frames` is computed from `max_time / min_distance` with
no degenerate-timing check anywhere, and finalization completes with an
`ok` result.  (In this exact-rational model `1 / 0 = 0`, so
`required_frames = 1`; in `f32` the division yields `inf` and the
saturating `as usize` cast makes `required_frames` wrap from
`usize::MAX + 1` — either way no explicit error result exists, which is
what the claim requires.) -/
theorem degenerate_min_distance_not_surfaced :
    (computeTiming bones7).min_distance = 0 ∧
    (computeTiming bones7).max_time = 1 ∧
    requiredFramesOf bones7 = 1 ∧
    (finalize_animations bones7).isOk = true := by
  refine ⟨?_, ?_, ?_, ?_⟩
  · norm_num [computeTiming, devolve_timestamp_data, devolveGo, f32max, f32min,
      bones7, BoneAnimationChannel.new]
  · norm_num [computeTiming, devolve_timestamp_data, devolveGo, f32max, f32min,
      bones7, BoneAnimationChannel.new]
  · norm_num [requiredFramesOf, required_frames, computeTiming,
      devolve_timestamp_data, devolveGo, roundRust, f32max, f32min, Int.toNat,
      bones7, BoneAnimationChannel.new]
  · norm_num [finalize_animations, finalizeList, finalizeChannel, resampleComponent,
      checkLens, computeTiming, devolve_timestamp_data, devolveGo, required_frames,
      requiredFramesOf, roundRust, truncQ, into_precision, f32max, f32min, Int.toNat,
      generalStep, findFrameKey, bones7, BoneAnimationChannel.new, Vec3.zero,
      Vec3.one, Quat.identity, List.range_succ, rr_bind_ok, rr_pure_eq_ok,
      RustResult.isOk]

/-- A node whose rotation timestamps contain a duplicated instant
`[0, 1, 1]`: the consecutive deltas are `1` and `0`. -/
def bones6 : List (ℤ × BoneAnimationChannel) :=
  [(0, { BoneAnimationChannel.new with
          rotations := [Quat.identity, Quat.identity, Quat.identity],
          rotation_timestamps := [0, 1, 1] })]

/-- Counterexample to claim C6 as stated: the scan has no positivity
filter, so the duplicated timestamp makes `min_distance = 0`, while the
smallest POSITIVE consecutive gap over the four arrays is `1`. -/
theorem min_distance_not_smallest_positive_gap :
    (computeTiming bones6).min_distance = 0 ∧
    smallestPositiveGapSpec bones6 = 1 ∧
    (0 : ℚ) ≠ 1 := by
  refine ⟨?_, ?_, by norm_num⟩
  · norm_num [computeTiming, devolve_timestamp_data, devolveGo, f32max, f32min,
      bones6, BoneAnimationChannel.new]
  · norm_num [smallestPositiveGapSpec, consecDeltas, bones6,
      BoneAnimationChannel.new, min_def, f32max]

-- ## C6 amended chain

/-- Consecutive differences of a timestamp array relative to an explicit
previous timestamp (the running `old_timestamp` of the scan). -/
def extDeltas (old : ℚ) : List ℚ → List ℚ
  | [] => []
  | t :: rest => (t - old) :: extDeltas t rest

-- The `min_distance` worker is the running minimum of the visited deltas.
theorem devolveGo_min_distance (l : List ℚ) :
    ∀ (st : Timing) (old : ℚ),
      (devolveGo st old l).min_distance
        = (extDeltas old l).foldl min st.min_distance := by
  induction l with
  | nil => intro st old; rfl
  | cons t rest ih =>
    intro st old
    simp only [devolveGo, extDeltas, List.foldl_cons]
    rw [ih]
    congr 1
    rcases le_or_lt st.min_distance (t - old) with hle | hlt
    · rw [if_neg (not_lt.mpr hle), min_eq_left hle]
    · rw [if_pos hlt, min_eq_right (le_of_lt hlt)]

-- A min-fold never rises above its initial value.
theorem foldl_min_le_init (l : List ℚ) : ∀ a : ℚ, l.foldl min a ≤ a := by
  induction l with
  | nil => intro a; simp
  | cons x xs ih =>
    intro a
    simp only [List.foldl_cons]
    exact le_trans (ih (min a x)) (min_le_left a x)

theorem extDeltas_eq_consec (l : List ℚ) :
    ∀ t : ℚ, extDeltas t l = List.zipWith (fun a b => b - a) (t :: l) l := by
  induction l with
  | nil => intro t; rfl
  | cons r rest ih =>
    intro t
    simp only [extDeltas, List.zipWith]
    rw [ih]

-- With a nonnegative first timestamp, the sentinel delta against
-- `f32::MIN` never lowers the minimum, so a single array contributes
-- exactly its own consecutive deltas.
theorem devolve_min_distance (st : Timing) (l : List ℚ)
    (hst : st.min_distance ≤ f32max) (hhead : 0 ≤ l.headD 0) :
    (devolve_timestamp_data st l).min_distance
      = (consecDeltas l).foldl min st.min_distance := by
  cases l with
  | nil => rfl
  | cons t rest =>
    unfold devolve_timestamp_data
    rw [devolveGo_min_distance]
    simp only [extDeltas, List.foldl_cons]
    have ht : (0 : ℚ) ≤ t := by simpa using hhead
    have h1 : min st.min_distance (t - f32min) = st.min_distance := by
      apply min_eq_left
      refine le_trans hst ?_
      have hmm : f32min = -f32max := by unfold f32min f32max; ring
      rw [hmm]
      linarith
    rw [h1, extDeltas_eq_consec]
    rfl

-- One record's scan (translation, rotation twice, weight) contributes the
-- concatenation of its scanned deltas.
theorem recordScan_min_distance (st : Timing) (a : BoneAnimationChannel)
    (hst : st.min_distance ≤ f32max)
    (h1 : 0 ≤ a.translation_timestamps.headD 0)
    (h2 : 0 ≤ a.rotation_timestamps.headD 0)
    (h3 : 0 ≤ a.weight_timestamps.headD 0) :
    (devolve_timestamp_data (devolve_timestamp_data (devolve_timestamp_data
      (devolve_timestamp_data st a.translation_timestamps)
        a.rotation_timestamps) a.rotation_timestamps)
          a.weight_timestamps).min_distance
      = (consecDeltas a.translation_timestamps ++
          (consecDeltas a.rotation_timestamps ++
            (consecDeltas a.rotation_timestamps ++
              consecDeltas a.weight_timestamps))).foldl min st.min_distance := by
  have e1 := devolve_min_distance st a.translation_timestamps hst h1
  have b1 : (devolve_timestamp_data st a.translation_timestamps).min_distance
      ≤ f32max := by
    rw [e1]; exact le_trans (foldl_min_le_init _ _) hst
  have e2 := devolve_min_distance _ a.rotation_timestamps b1 h2
  have b2 : (devolve_timestamp_data (devolve_timestamp_data st
      a.translation_timestamps) a.rotation_timestamps).min_distance ≤ f32max := by
    rw [e2]; exact le_trans (foldl_min_le_init _ _) b1
  have e3 := devolve_min_distance _ a.rotation_timestamps b2 h2
  have b3 : (devolve_timestamp_data (devolve_timestamp_data
      (devolve_timestamp_data st a.translation_timestamps)
        a.rotation_timestamps) a.rotation_timestamps).min_distance ≤ f32max := by
    rw [e3]; exact le_trans (foldl_min_le_init _ _) b2
  have e4 := devolve_min_distance _ a.weight_timestamps b3 h3
  rw [e4, e3, e2, e1, List.foldl_append, List.foldl_append, List.foldl_append]

-- The whole fold over all records.
theorem timingFold_min_distance (bones : List (ℤ × BoneAnimationChannel)) :
    ∀ st : Timing, st.min_distance ≤ f32max →
    (∀ p ∈ bones, 0 ≤ p.2.translation_timestamps.headD 0 ∧
      0 ≤ p.2.rotation_timestamps.headD 0 ∧
      0 ≤ p.2.weight_timestamps.headD 0) →
    (bones.foldl
      (fun st p =>
        devolve_timestamp_data
          (devolve_timestamp_data
            (devolve_timestamp_data
              (devolve_timestamp_data st p.2.translation_timestamps)
              p.2.rotation_timestamps)
            p.2.rotation_timestamps)
          p.2.weight_timestamps)
      st).min_distance
      = (scannedDeltas bones).foldl min st.min_distance := by
  induction bones with
  | nil => intro st _ _; rfl
  | cons b rest ih =>
    intro st hst hh
    obtain ⟨hb1, hb2, hb3⟩ := hh b (List.mem_cons_self _ _)
    have hrec := recordScan_min_distance st b.2 hst hb1 hb2 hb3
    have hb : (devolve_timestamp_data (devolve_timestamp_data
        (devolve_timestamp_data (devolve_timestamp_data st
          b.2.translation_timestamps) b.2.rotation_timestamps)
            b.2.rotation_timestamps) b.2.weight_timestamps).min_distance
        ≤ f32max := by
      rw [hrec]; exact le_trans (foldl_min_le_init _ _) hst
    rw [List.foldl_cons, ih _ hb (fun p hp => hh p (List.mem_cons_of_mem _ hp)),
      hrec]
    unfold scannedDeltas
    rw [List.flatMap_cons]
    simp [List.foldl_append]

-- A strictly-sorted nonnegative array has a nonnegative first entry.
theorem strictSortedNonneg_head (l : List ℚ) (h : strictSortedNonneg l = true) :
    0 ≤ l.headD 0 := by
  cases l with
  | nil => simp
  | cons a rest =>
    cases rest with
    | nil =>
      simp only [strictSortedNonneg, decide_eq_true_eq] at h
      simpa using h
    | cons b rest' =>
      simp only [strictSortedNonneg, Bool.and_eq_true, decide_eq_true_eq] at h
      simpa using h.1.1

-- Strict sortedness makes every consecutive delta positive.
theorem consecDeltas_pos (l : List ℚ) (h : strictSortedNonneg l = true) :
    ∀ d ∈ consecDeltas l, 0 < d := by
  induction l with
  | nil => intro d hd; simp [consecDeltas] at hd
  | cons a rest ih =>
    cases rest with
    | nil => intro d hd; simp [consecDeltas] at hd
    | cons b rest' =>
      simp only [strictSortedNonneg, Bool.and_eq_true, decide_eq_true_eq] at h
      intro d hd
      simp only [consecDeltas, List.tail_cons, List.zipWith] at hd
      rcases List.mem_cons.mp hd with rfl | htail
      · linarith [h.1.2]
      · refine ih ?_ d ?_
        · exact h.2
        · simpa [consecDeltas] using htail

/-- Claim C6 (amended): the scan has no positivity filter (see the
counterexample), so the claim holds only on well-formed input: when every
SCANNED timestamp array (translation, rotation, weight — scale is never
scanned, see C3) is strictly increasing with nonnegative entries, the
computed `min_distance` equals the smallest positive consecutive gap over
those scanned arrays (default `f32::MAX` when no gap exists), and a
channel's nonnegative first timestamp contributes no gap thanks to the
`f32::MIN` sentinel. -/
theorem min_distance_eq_smallest_positive_gap_of_sorted
    (bones : List (ℤ × BoneAnimationChannel))
    (h : ∀ p ∈ bones, strictSortedNonneg p.2.translation_timestamps = true ∧
      strictSortedNonneg p.2.rotation_timestamps = true ∧
      strictSortedNonneg p.2.weight_timestamps = true) :
    (computeTiming bones).min_distance = smallestPositiveGapScanned bones := by
  have hpos : ∀ d ∈ scannedDeltas bones, 0 < d := by
    intro d hd
    rw [scannedDeltas, List.mem_flatMap] at hd
    obtain ⟨p, hp, hdp⟩ := hd
    obtain ⟨s1, s2, s3⟩ := h p hp
    rcases List.mem_append.mp hdp with hl | h4
    · rcases List.mem_append.mp hl with hll | h3
      · rcases List.mem_append.mp hll with h1 | h2
        · exact consecDeltas_pos _ s1 d h1
        · exact consecDeltas_pos _ s2 d h2
      · exact consecDeltas_pos _ s2 d h3
    · exact consecDeltas_pos _ s3 d h4
  have hfilter : (scannedDeltas bones).filter (fun d => decide (0 < d))
      = scannedDeltas bones :=
    List.filter_eq_self.mpr fun a ha => decide_eq_true (hpos a ha)
  unfold smallestPositiveGapScanned
  rw [hfilter]
  unfold computeTiming
  exact timingFold_min_distance bones ⟨0, 0, f32max⟩ le_rfl
    fun p hp =>
      ⟨strictSortedNonneg_head _ (h p hp).1,
       strictSortedNonneg_head _ (h p hp).2.1,
       strictSortedNonneg_head _ (h p hp).2.2⟩

/-- A sorted witness input for the amended claim C6. -/
def bonesC6w : List (ℤ × BoneAnimationChannel) :=
  [(0, { BoneAnimationChannel.new with
          translations := [Vec3.zero, Vec3.zero],
          translation_timestamps := [0, 1 / 4] })]

/-- Witness for the amended claim C6 at a concrete sorted input. -/
theorem min_distance_eq_smallest_positive_gap_of_sorted_witness :
    (∀ p ∈ bonesC6w, strictSortedNonneg p.2.translation_timestamps = true ∧
      strictSortedNonneg p.2.rotation_timestamps = true ∧
      strictSortedNonneg p.2.weight_timestamps = true) ∧
    (computeTiming bonesC6w).min_distance = smallestPositiveGapScanned bonesC6w := by
  have hs : ∀ p ∈ bonesC6w, strictSortedNonneg p.2.translation_timestamps = true ∧
      strictSortedNonneg p.2.rotation_timestamps = true ∧
      strictSortedNonneg p.2.weight_timestamps = true := by
    intro p hp
    simp only [bonesC6w, List.mem_singleton] at hp
    subst hp
    refine ⟨?_, rfl, rfl⟩
    norm_num [strictSortedNonneg, decide_eq_true_eq]
  exact ⟨hs, min_distance_eq_smallest_positive_gap_of_sorted bonesC6w hs⟩

end MinetestGltf
